import Mathlib

/-!
Verification development for the consolidation pipeline and movement detector
of the portfolio-holdings dashboard in src/final.py.

The pandas data frames are embedded shallowly as Lean lists of structures.
Floating-point cells are modelled exactly by the type FVal below: a rational
number, NaN (pandas' null for float columns), or a signed infinity; the
arithmetic on FVal mirrors IEEE special-value propagation for the operations
the program performs (exact rational arithmetic stands in for rounded binary
arithmetic, which is the standard shallow embedding of float pipelines whose
claims concern null/zero/infinity classification and order comparisons).
String-valued cells are Lean Strings; dates are (year, month, day) triples.
-/

/-- Calendar date, as carried in the DT_COMPTC column and in parsed reference
sheet column headers. -/
structure Data where
  ano : Nat
  mes : Nat
  dia : Nat
deriving DecidableEq, Repr

/-- strftime of a date, as used for the MesAno month keys
(src/final.py lines 92 and 210): the year-month key YYYYMM. -/
def Data.mesAno (d : Data) : Nat := d.ano * 100 + d.mes

/-- Numeric encoding of a date used only to order dates (pandas orders
timestamps chronologically; real dates have mes less than 13 and dia less
than 32, so this encoding orders them chronologically). -/
def Data.toNat (d : Data) : Nat := d.ano * 10000 + d.mes * 100 + d.dia

/-- A pandas float cell: NaN (the float null), a signed infinity, or a
finite value (modelled exactly as a rational). -/
inductive FVal where
  | nan : FVal
  | inf : FVal
  | ninf : FVal
  | num : ℚ → FVal
deriving DecidableEq, Repr

/-- Division of two finite floats, with the IEEE zero-denominator outcomes
pandas produces: 0/0 is NaN, x/0 is a signed infinity for nonzero x. -/
def qdivF (a b : ℚ) : FVal :=
  if b = 0 then (if a = 0 then .nan else if 0 < a then .inf else .ninf)
  else .num (a / b)

/-- IEEE addition on float cells. -/
def fvalAdd : FVal → FVal → FVal
  | .nan, _ => .nan
  | _, .nan => .nan
  | .inf, .ninf => .nan
  | .ninf, .inf => .nan
  | .inf, _ => .inf
  | _, .inf => .inf
  | .ninf, _ => .ninf
  | _, .ninf => .ninf
  | .num a, .num b => .num (a + b)

/-- IEEE subtraction on float cells. -/
def fvalSub : FVal → FVal → FVal
  | .nan, _ => .nan
  | _, .nan => .nan
  | .inf, .inf => .nan
  | .ninf, .ninf => .nan
  | .inf, _ => .inf
  | .ninf, _ => .ninf
  | _, .inf => .ninf
  | _, .ninf => .inf
  | .num a, .num b => .num (a - b)

/-- IEEE multiplication on float cells. -/
def fvalMul : FVal → FVal → FVal
  | .nan, _ => .nan
  | _, .nan => .nan
  | .inf, .inf => .inf
  | .inf, .ninf => .ninf
  | .ninf, .inf => .ninf
  | .ninf, .ninf => .inf
  | .inf, .num b => if 0 < b then .inf else if b < 0 then .ninf else .nan
  | .num a, .inf => if 0 < a then .inf else if a < 0 then .ninf else .nan
  | .ninf, .num b => if 0 < b then .ninf else if b < 0 then .inf else .nan
  | .num a, .ninf => if 0 < a then .ninf else if a < 0 then .inf else .nan
  | .num a, .num b => .num (a * b)

/-- IEEE division on float cells (a rational divided by zero follows qdivF;
infinities over finite values keep their sign, finite over infinite is zero,
and NaN propagates). -/
def fvalDiv : FVal → FVal → FVal
  | .nan, _ => .nan
  | _, .nan => .nan
  | .inf, .inf => .nan
  | .inf, .ninf => .nan
  | .ninf, .inf => .nan
  | .ninf, .ninf => .nan
  | .inf, .num b => if 0 ≤ b then .inf else .ninf
  | .ninf, .num b => if 0 ≤ b then .ninf else .inf
  | .num _, .inf => .num 0
  | .num _, .ninf => .num 0
  | .num a, .num b => qdivF a b

/-- IEEE strict order on float cells: any comparison against NaN is false. -/
def fvalLt : FVal → FVal → Bool
  | .nan, _ => false
  | _, .nan => false
  | .ninf, .ninf => false
  | .ninf, _ => true
  | _, .ninf => false
  | .num a, .num b => a < b
  | .num _, .inf => true
  | .inf, _ => false

/-- IEEE non-strict order on float cells: any comparison against NaN is
false. -/
def fvalLe : FVal → FVal → Bool
  | .nan, _ => false
  | _, .nan => false
  | .ninf, _ => true
  | _, .ninf => false
  | _, .inf => true
  | .inf, _ => false
  | .num a, .num b => a ≤ b

/-- IEEE equality test on float cells: NaN compares unequal to everything,
including itself. -/
def fvalBeq : FVal → FVal → Bool
  | .nan, _ => false
  | _, .nan => false
  | .inf, .inf => true
  | .ninf, .ninf => true
  | .num a, .num b => a = b
  | _, _ => false

/-- pandas isna on a float cell: true exactly for NaN. -/
def fvalIsna : FVal → Bool
  | .nan => true
  | _ => false

/-- A float cell holds an ordinary finite value (neither NaN nor infinite). -/
def fvalIsFinite : FVal → Bool
  | .num _ => true
  | _ => false

/-- Series.fillna(0) on one float cell (src/final.py line 566). -/
def fillna0 : FVal → FVal
  | .nan => .num 0
  | x => x

/-- Series.replace([np.inf, -np.inf], 0) on one float cell
(src/final.py lines 581, 615, 646). -/
def replaceInf0 : FVal → FVal
  | .inf => .num 0
  | .ninf => .num 0
  | x => x

/-- Sum of a float column (foldr of IEEE addition, zero base). -/
def fvalSum (l : List FVal) : FVal := l.foldr fvalAdd (.num 0)

/-- One row of the combined per-fund holdings table dados_brutos after the
VL_MERC_POS_FINAL column was coerced with pd.to_numeric(errors=coerce)
(src/final.py line 194): a non-numeric position value is null (none). -/
structure HoldingRecord where
  dt : Data
  denomSocial : String
  tpAplic : String
  tpAtivo : String
  cdAtivo : Option String
  vl : Option ℚ
deriving DecidableEq, Repr

/-- One row of the fund-to-manager map mapa_gestora_fundo after dropna and
drop_duplicates (src/final.py line 49). -/
structure MapRow where
  gestora : String
  fundo : String
deriving DecidableEq, Repr

/-- One row of a long-format reference series (market cap or liquidity)
produced by carregar_e_processar_planilha_wide: values are numeric and
dates parsed, since null rows were dropped (src/final.py line 91). -/
structure RefRow where
  ticker : String
  mesAno : Nat
  val : ℚ
deriving DecidableEq, Repr

/-- One column of a wide-format reference sheet, as seen after the two
pandas coercions the loader applies: the header after day-first
pd.to_datetime(errors=coerce) (none when the date label fails day-first
parsing, src/final.py lines 89-90), and the cells of the column after
pd.to_numeric(errors=coerce) (none when the value is non-numeric, line 88). -/
structure WideCol where
  header : Option Data
  cells : List (Option ℚ)
deriving DecidableEq, Repr

/-- carregar_e_processar_planilha_wide (src/final.py lines 72-94): melt the
wide sheet to long form (one candidate row per ticker row and date column),
drop the rows whose parsed date or coerced value is null, and key the
survivors by ticker and year-month. The melt enumerates columns in order
and, within a column, pairs the first (ticker) column with that column's
cells positionally. -/
def carregarEProcessarPlanilhaWide (tickers : List String) (cols : List WideCol) :
    List RefRow :=
  cols.flatMap (fun c =>
    (tickers.zip c.cells).filterMap (fun tv =>
      match c.header, tv.2 with
      | some d, some v => some ⟨tv.1, d.mesAno, v⟩
      | _, _ => none))

/-- Fatal error raised by carregar_dados_historicos when a monthly parquet
file is missing: st.error names the month and the path, st.stop halts
(src/final.py lines 64-66). -/
structure ErroFatal where
  mes : String
  path : String
deriving DecidableEq, Repr

/-- os.path.join(caminho, carteira_consolidada_MES.parquet)
(src/final.py line 61). -/
def pathConsolidado (caminho mes : String) : String :=
  caminho ++ "/carteira_consolidada_" ++ mes ++ ".parquet"

/-- The per-month read loop of carregar_dados_historicos (src/final.py
lines 58-66) over a file system modelled as a partial map from paths to
parquet tables: each month's file is appended in order; the first missing
file halts everything with the fatal error naming that month and path. -/
def lerMeses (fs : String → Option (List HoldingRecord)) (caminho : String) :
    List String → Except ErroFatal (List (List HoldingRecord))
  | [] => .ok []
  | mes :: rest =>
    match fs (pathConsolidado caminho mes) with
    | none => .error ⟨mes, pathConsolidado caminho mes⟩
    | some df =>
      match lerMeses fs caminho rest with
      | .error e => .error e
      | .ok ls => .ok (df :: ls)

/-- carregar_dados_historicos (src/final.py lines 56-67): concatenate the
monthly tables, returning None (here: ok none) when the month list was
empty, and propagating the fatal error of a missing file. -/
def carregarDadosHistoricos (fs : String → Option (List HoldingRecord))
    (caminho : String) (meses : List String) :
    Except ErroFatal (Option (List HoldingRecord)) :=
  match lerMeses fs caminho meses with
  | .error e => .error e
  | .ok ls => .ok (if ls.isEmpty then none else some ls.flatten)

/-- A row of dados_completos: the inner merge of dados_brutos with the
fund-to-manager map on DENOM_SOCIAL = Fundo (src/final.py line 193). -/
structure DCRow where
  dt : Data
  gestora : String
  tpAplic : String
  tpAtivo : String
  cdAtivo : Option String
  vl : Option ℚ
deriving DecidableEq, Repr

/-- pd.merge(dados_brutos, mapa, left_on=DENOM_SOCIAL, right_on=Fundo,
how=inner) (src/final.py line 193): every (holding row, map row) pair with
equal fund name yields one joined row; holdings of unmapped funds drop out. -/
def dadosCompletos (brutos : List HoldingRecord) (mapa : List MapRow) :
    List DCRow :=
  brutos.flatMap (fun r =>
    (mapa.filter (fun m => r.denomSocial = m.fundo)).map
      (fun m => ⟨r.dt, m.gestora, r.tpAplic, r.tpAtivo, r.cdAtivo, r.vl⟩))

/-- The TP_APLIC allow-list (src/final.py lines 196-197). -/
def tiposAplicInteresseAcoes : List String :=
  ["Ações", "Certificado ou recibo de depósito de valores mobiliários",
   "Ações e outros TVM cedidos em empréstimo"]

/-- The TP_ATIVO allow-list (src/final.py lines 198-199). -/
def tiposAtivoAcao : List String :=
  ["Ação ordinária", "Ação preferencial", "Certificado de depósito de ações",
   "Recibo de subscrição", "UNIT"]

/-- A row of dados_acoes after the equity filters: ticker known non-null. -/
structure AcaoRow where
  dt : Data
  gestora : String
  ativo : String
  vl : Option ℚ
deriving DecidableEq, Repr

/-- dados_acoes (src/final.py lines 200-205): keep rows whose TP_APLIC and
TP_ATIVO are in the two allow-lists, drop rows with a null CD_ATIVO, and
keep only tickers in the valid-ticker list. -/
def dadosAcoes (dc : List DCRow) (tickersValidos : List String) : List AcaoRow :=
  dc.filterMap (fun r =>
    match r.cdAtivo with
    | none => none
    | some t =>
      if r.tpAplic ∈ tiposAplicInteresseAcoes ∧ r.tpAtivo ∈ tiposAtivoAcao ∧
          t ∈ tickersValidos
      then some ⟨r.dt, r.gestora, t, r.vl⟩ else none)

/-- The groupby key of the consolidation: (DT_COMPTC, Gestora, CD_ATIVO)
(src/final.py line 208). -/
structure PosKey where
  dt : Data
  gestora : String
  ativo : String
deriving DecidableEq, Repr

/-- Key of an equity row. -/
def keyOf (r : AcaoRow) : PosKey := ⟨r.dt, r.gestora, r.ativo⟩

/-- A row of posicao_consolidada with its MesAno key
(src/final.py lines 208-210). -/
structure PosRow where
  dt : Data
  gestora : String
  ativo : String
  valor : ℚ
  mesAno : Nat
deriving DecidableEq, Repr

/-- posicao_consolidada (src/final.py lines 208-210): group dados_acoes by
(DT_COMPTC, Gestora, CD_ATIVO) and sum VL_MERC_POS_FINAL within each group
(pandas sums skipping nulls, so a null value contributes zero), then derive
the MesAno key from the report date. One output row per distinct key. -/
def posicaoConsolidada (rs : List AcaoRow) : List PosRow :=
  ((rs.map keyOf).dedup).map (fun k =>
    ⟨k.dt, k.gestora, k.ativo,
     ((rs.filter (fun r => keyOf r = k)).map (fun r => r.vl.getD 0)).sum,
     k.dt.mesAno⟩)

/-- posicao_consolidada joined with the market-cap series
(src/final.py lines 213-214). -/
structure McRow where
  dt : Data
  gestora : String
  ativo : String
  valor : ℚ
  mesAno : Nat
  marketCap : Option ℚ
deriving DecidableEq, Repr

/-- The further join with the liquidity series (src/final.py line 215). -/
structure MergedRow where
  dt : Data
  gestora : String
  ativo : String
  valor : ℚ
  mesAno : Nat
  marketCap : Option ℚ
  liq : Option ℚ
deriving DecidableEq, Repr

/-- pd.merge(..., df_market_caps, left_on=[CD_ATIVO, MesAno],
right_on=[Ticker, MesAno], how=left) (src/final.py lines 213-214): an
unmatched position keeps a null market cap; every matching reference row
duplicates the position row, as pandas left merges do. -/
def mergeMarketCap (pos : List PosRow) (mcS : List RefRow) : List McRow :=
  pos.flatMap (fun p =>
    let ms := mcS.filter (fun s => s.ticker = p.ativo ∧ s.mesAno = p.mesAno)
    if ms.isEmpty then [⟨p.dt, p.gestora, p.ativo, p.valor, p.mesAno, none⟩]
    else ms.map (fun s => ⟨p.dt, p.gestora, p.ativo, p.valor, p.mesAno, some s.val⟩))

/-- pd.merge(..., df_liquidez, ... how=left) (src/final.py line 215), same
shape as the market-cap join. -/
def mergeLiquidez (xs : List McRow) (liqS : List RefRow) : List MergedRow :=
  xs.flatMap (fun x =>
    let ms := liqS.filter (fun s => s.ticker = x.ativo ∧ s.mesAno = x.mesAno)
    if ms.isEmpty then
      [⟨x.dt, x.gestora, x.ativo, x.valor, x.mesAno, x.marketCap, none⟩]
    else ms.map (fun s =>
      ⟨x.dt, x.gestora, x.ativo, x.valor, x.mesAno, x.marketCap, some s.val⟩))

/-- A row of df_final after the two derived columns of lines 224-225. -/
structure FinalRow where
  dt : Data
  gestora : String
  ativo : String
  valor : ℚ
  mesAno : Nat
  marketCap : Option ℚ
  liq : Option ℚ
  percCia : FVal
  plTotal : ℚ
deriving DecidableEq, Repr

/-- df_final[Perc_Cia] = Valor_Consolidado_R / Market_Cap_Cia_R * 100
(src/final.py line 224): the null market cap of an unmatched position
propagates through pandas float division as NaN. -/
def percCiaCalc (valor : ℚ) (marketCap : Option ℚ) : FVal :=
  match marketCap with
  | none => .nan
  | some mc => fvalMul (qdivF valor mc) (.num 100)

/-- df_final[PL_Total_Gestora_Mes] = groupby([Gestora, DT_COMPTC]).transform
sum of Valor_Consolidado_R (src/final.py line 225). -/
def plTotalCalc (m2 : List MergedRow) (g : String) (d : Data) : ℚ :=
  ((m2.filter (fun x => x.gestora = g ∧ x.dt = d)).map (fun x => x.valor)).sum

/-- The two derived columns of df_final added to the merged table
(src/final.py lines 224-225). -/
def dfFinalFrom (m2 : List MergedRow) : List FinalRow :=
  m2.map (fun x =>
    ⟨x.dt, x.gestora, x.ativo, x.valor, x.mesAno, x.marketCap, x.liq,
     percCiaCalc x.valor x.marketCap, plTotalCalc m2 x.gestora x.dt⟩)

/-- The whole consolidation pipeline producing df_final (src/final.py
lines 193-225) from the combined holdings, the fund-to-manager map, the
valid-ticker list and the two (already scaled, lines 168-178) reference
series. -/
def dfFinal (brutos : List HoldingRecord) (mapa : List MapRow)
    (tickersValidos : List String) (mcS liqS : List RefRow) : List FinalRow :=
  dfFinalFrom
    (mergeLiquidez
      (mergeMarketCap (posicaoConsolidada (dadosAcoes (dadosCompletos brutos mapa) tickersValidos)) mcS)
      liqS)

/-- Perc_PL of the selected-month view (src/final.py lines 276-279):
Valor_Consolidado_R / pl_gestora * 100 when pl_gestora is truthy (nonzero),
and the scalar 0 otherwise. -/
def percPLMes (valor plGestora : ℚ) : FVal :=
  if plGestora ≠ 0 then fvalMul (qdivF valor plGestora) (.num 100) else .num 0

/-- Perc_PL of the monthly-evolution view (src/final.py lines 372-374):
Valor_Consolidado_R / PL_Total_Gestora_Mes * 100, with no normalization. -/
def percPLEvo (r : FinalRow) : FVal := fvalMul (qdivF r.valor r.plTotal) (.num 100)

/-- The base_cols projection of a df_final snapshot row used by the
movement page (src/final.py lines 555-559): Gestora, Ativo, Perc_Cia,
Valor_Consolidado_R, PL_Total_Gestora_Mes. -/
structure SnapRow where
  gestora : String
  ativo : String
  percCia : FVal
  valor : ℚ
  plTotal : ℚ
deriving DecidableEq, Repr

/-- Project a df_final row to its movement-page columns. -/
def snapOf (r : FinalRow) : SnapRow := ⟨r.gestora, r.ativo, r.percCia, r.valor, r.plTotal⟩

/-- The distinct report dates of df_final
(df_final[DT_COMPTC].unique(), src/final.py line 549). -/
def datasDisp (df : List FinalRow) : List Data := (df.map (fun r => r.dt)).dedup

/-- Chronologically earlier of two dates. -/
def dataMinAB (a b : Data) : Data := if a.toNat ≤ b.toNat then a else b

/-- Chronologically later of two dates. -/
def dataMaxAB (a b : Data) : Data := if b.toNat ≤ a.toNat then a else b

/-- data_ini = sorted(datas_disp)[0] (src/final.py line 554): the earliest
distinct report date (the zero date on an empty table, unreachable behind
the two-dates guard of line 550). -/
def dataIni (df : List FinalRow) : Data :=
  match datasDisp df with
  | [] => ⟨0, 0, 0⟩
  | d :: ds => ds.foldl dataMinAB d

/-- data_fim = sorted(datas_disp)[-1] (src/final.py line 554): the latest
distinct report date. -/
def dataFim (df : List FinalRow) : Data :=
  match datasDisp df with
  | [] => ⟨0, 0, 0⟩
  | d :: ds => ds.foldl dataMaxAB d

/-- df_ini (src/final.py line 558): the start-date snapshot of df_final,
projected to the movement columns. -/
def dfIni (df : List FinalRow) : List SnapRow :=
  (df.filter (fun r => r.dt = dataIni df)).map snapOf

/-- df_fim (src/final.py line 559): the end-date snapshot. -/
def dfFim (df : List FinalRow) : List SnapRow :=
  (df.filter (fun r => r.dt = dataFim df)).map snapOf

/-- One row of mov, the outer merge of the two snapshots with suffixes
_ini/_fim, after fillna(0) (src/final.py lines 561-566). -/
structure MovRow where
  gestora : String
  ativo : String
  percCiaIni : FVal
  valorIni : ℚ
  plIni : ℚ
  percCiaFim : FVal
  valorFim : ℚ
  plFim : ℚ
deriving DecidableEq, Repr

/-- A matched (manager, ticker) pair: both snapshots contribute; fillna(0)
turns a NaN ownership percentage on either side into zero. -/
def mkBoth (a b : SnapRow) : MovRow :=
  ⟨a.gestora, a.ativo, fillna0 a.percCia, a.valor, a.plTotal,
   fillna0 b.percCia, b.valor, b.plTotal⟩

/-- A pair present only in the start snapshot: the merge leaves the _fim
columns NaN and fillna(0) zeroes them. -/
def mkLeftOnly (a : SnapRow) : MovRow :=
  ⟨a.gestora, a.ativo, fillna0 a.percCia, a.valor, a.plTotal, .num 0, 0, 0⟩

/-- A pair present only in the end snapshot: the _ini columns are zeroed. -/
def mkRightOnly (b : SnapRow) : MovRow :=
  ⟨b.gestora, b.ativo, .num 0, 0, 0, fillna0 b.percCia, b.valor, b.plTotal⟩

/-- df_ini.merge(df_fim, on=[Gestora, Ativo], how=outer,
suffixes=(_ini, _fim)).fillna(0) (src/final.py lines 561-566): key-matched
rows pair up (every match duplicates, as pandas outer merges do), unmatched
rows of either side survive with the other side's columns zero-filled. -/
def outerMergeFill (ini fim : List SnapRow) : List MovRow :=
  ini.flatMap (fun a =>
    if (fim.filter (fun b => a.gestora = b.gestora ∧ a.ativo = b.ativo)).isEmpty
    then [mkLeftOnly a]
    else (fim.filter (fun b => a.gestora = b.gestora ∧ a.ativo = b.ativo)).map (mkBoth a))
  ++ (fim.filter (fun b =>
      ¬ (ini.any (fun a => a.gestora = b.gestora ∧ a.ativo = b.ativo)))).map mkRightOnly

/-- mov (src/final.py lines 561-566) built from df_final. -/
def movOf (df : List FinalRow) : List MovRow := outerMergeFill (dfIni df) (dfFim df)

/-- novas (src/final.py lines 570-573): pairs with Perc_Cia_ini equal to 0
and Perc_Cia_fim above the minimum final participation. -/
def novas (mov : List MovRow) (partFinalMin : ℚ) : List MovRow :=
  mov.filter (fun m =>
    fvalBeq m.percCiaIni (.num 0) && fvalLt (.num partFinalMin) m.percCiaFim)

/-- Var_Rel of an increase (src/final.py lines 597-600):
(Perc_Cia_fim - Perc_Cia_ini) / Perc_Cia_ini * 100. -/
def varRelAum (m : MovRow) : FVal :=
  fvalMul (fvalDiv (fvalSub m.percCiaFim m.percCiaIni) m.percCiaIni) (.num 100)

/-- aumentos (src/final.py lines 591-604): first keep pairs with
Perc_Cia_ini above 0 that grew, then (when any survived) keep those whose
relative increase reaches aumento_rel_min and whose final participation is
above part_final_min. -/
def aumentos (mov : List MovRow) (aumentoRelMin partFinalMin : ℚ) : List MovRow :=
  let a1 := mov.filter (fun m =>
    fvalLt (.num 0) m.percCiaIni && fvalLt m.percCiaIni m.percCiaFim)
  if a1.isEmpty then a1
  else a1.filter (fun m =>
    fvalLe (.num aumentoRelMin) (varRelAum m) && fvalLt (.num partFinalMin) m.percCiaFim)

/-- Var_Rel of a reduction (src/final.py lines 631-634):
(Perc_Cia_ini - Perc_Cia_fim) / Perc_Cia_ini * 100. -/
def varRelRed (m : MovRow) : FVal :=
  fvalMul (fvalDiv (fvalSub m.percCiaIni m.percCiaFim) m.percCiaIni) (.num 100)

/-- reducoes (src/final.py lines 625-635): pairs with Perc_Cia_ini above 0
that shrank, then (when any survived) those whose relative decrease reaches
reducao_rel_min; no final-participation gate. -/
def reducoes (mov : List MovRow) (reducaoRelMin : ℚ) : List MovRow :=
  let r1 := mov.filter (fun m =>
    fvalLt (.num 0) m.percCiaIni && fvalLt m.percCiaFim m.percCiaIni)
  if r1.isEmpty then r1
  else r1.filter (fun m => fvalLe (.num reducaoRelMin) (varRelRed m))

/-- The numeric % PL Final column shared by the three movement tables
(src/final.py lines 578-581, 612-615, 643-646):
(Valor_Consolidado_R_fim / PL_Total_Gestora_Mes_fim) with infinities
replaced by 0, times 100. -/
def percPLFinal (m : MovRow) : FVal :=
  fvalMul (replaceInf0 (qdivF m.valorFim m.plFim)) (.num 100)

/-- The displayed % PL Final of a reduction row: the string Zerou when the
final participation is 0, a formatted percentage otherwise
(src/final.py lines 648-651). -/
inductive PLFinalDisplay where
  | zerou : PLFinalDisplay
  | pct : FVal → PLFinalDisplay
deriving DecidableEq, Repr

/-- The Zerou-or-percentage display rule of reducoes
(src/final.py lines 648-651). -/
def percPLFinalRed (m : MovRow) : PLFinalDisplay :=
  if fvalBeq m.percCiaFim (.num 0) then .zerou else .pct (percPLFinal m)

/-- Substring test on character lists, used to model the Python test
TICKER in COLUMN_NAME. -/
def hasSubstrAux (needle : List Char) : List Char → Bool
  | [] => needle.isEmpty
  | c :: cs => needle.isPrefixOf (c :: cs) || hasSubstrAux needle cs

/-- The Python membership test: the word Ticker occurs in the column name
(src/final.py line 217). -/
def containsTicker (s : String) : Bool := hasSubstrAux "Ticker".toList s.toList

/-- Columns of posicao_consolidada with its MesAno key (src/final.py
lines 208-210): the groupby key columns, the aggregated value, the month
key. -/
def posicaoConsolidadaCols : List String :=
  ["DT_COMPTC", "Gestora", "CD_ATIVO", "Valor_Consolidado_R", "MesAno"]

/-- Columns after the two left merges (src/final.py lines 213-215): each
merge appends the right table's non-key columns; the two Ticker columns
brought in by the merges collide and get pandas suffixes. MesAno is a join
key on both sides and stays single. -/
def dfFinalColsAposMerges : List String :=
  posicaoConsolidadaCols ++ ["Ticker_x", "Market_Cap_Cia_R"] ++
    ["Ticker_y", "Volume_Medio_Financeiro_60d"]

/-- The rename CD_ATIVO to Ativo (src/final.py line 216). -/
def renameCdAtivo (c : String) : String := if c = "CD_ATIVO" then "Ativo" else c

/-- The columns of df_final as shared with every page: rename, drop every
column containing Ticker, then add the two derived columns Perc_Cia and
PL_Total_Gestora_Mes (src/final.py lines 216-217 and 224-225). -/
def dfFinalCols : List String :=
  ((dfFinalColsAposMerges.map renameCdAtivo).filter (fun c => !containsTicker c))
    ++ ["Perc_Cia", "PL_Total_Gestora_Mes"]

/-! Concrete instances used by counterexamples and witnesses. -/

/-- A holdings table with one zero-value equity position. -/
def c1Brutos : List HoldingRecord :=
  [⟨⟨2024, 10, 31⟩, "FUNDO A", "Ações", "Ação ordinária", some "XXXX3", some 0⟩]

/-- A one-fund manager map. -/
def c1Mapa : List MapRow := [⟨"GESTORA A", "FUNDO A"⟩]

/-- The matching valid-ticker list. -/
def c1Tickers : List String := ["XXXX3"]

/-- A market-cap series carrying the value zero for the position's month. -/
def c1Mc : List RefRow := [⟨"XXXX3", 202410, 0⟩]

/-- The single consolidated row the c1 inputs produce. -/
def c1Row : FinalRow :=
  ⟨⟨2024, 10, 31⟩, "GESTORA A", "XXXX3", 0, 202410, some 0, none, .nan, 0⟩

/-- A holdings table with two positions of one manager on one date. -/
def c2Brutos : List HoldingRecord :=
  [⟨⟨2024, 10, 31⟩, "FUNDO A", "Ações", "Ação ordinária", some "AAAA3", some 60⟩,
   ⟨⟨2024, 10, 31⟩, "FUNDO A", "Ações", "Ação ordinária", some "BBBB3", some 40⟩]

/-- The valid tickers for the c2 table. -/
def c2Tickers : List String := ["AAAA3", "BBBB3"]

/-- A one-ticker reference sheet with two date columns inside one month. -/
def c3Tickers : List String := ["AAAA3"]

/-- Two January 2024 columns, both with valid cells. -/
def c3Cols : List WideCol :=
  [⟨some ⟨2024, 1, 15⟩, [some 5]⟩, ⟨some ⟨2024, 1, 31⟩, [some 7]⟩]

/-- Two equity rows sharing one (date, manager, ticker) key, with values
100 and 50. -/
def c4Rs : List AcaoRow :=
  [⟨⟨2024, 10, 31⟩, "G", "T", some 100⟩, ⟨⟨2024, 10, 31⟩, "G", "T", some 50⟩]

/-- The single aggregated row for c4Rs. -/
def c4Row : PosRow := ⟨⟨2024, 10, 31⟩, "G", "T", 150, 202410⟩

/-- The Increased scenario of the spec: ownership 1.0 percent at the start
and 1.6 percent at the end. -/
def c5M : MovRow := ⟨"G", "Y", .num 1, 10, 1000, .num (8/5), 16, 1000⟩

/-- The full-exit scenario of the spec: ownership 2.0 percent at the start
and zero at the end. -/
def c6M : MovRow := ⟨"G", "Z", .num 2, 50, 100, .num 0, 0, 0⟩

/-- A file system with no files at all. -/
def c8Fs : String → Option (List HoldingRecord) := fun _ => none

/-- A holdings table whose second month holds a position absent from the
first month. -/
def c9Brutos : List HoldingRecord :=
  [⟨⟨2024, 10, 31⟩, "FUNDO A", "Ações", "Ação ordinária", some "AAAA3", some 5⟩,
   ⟨⟨2024, 11, 29⟩, "FUNDO A", "Ações", "Ação ordinária", some "BBBB3", some 10⟩]

/-- The valid tickers for the c9 table. -/
def c9Tickers : List String := ["AAAA3", "BBBB3"]

/-- Market cap only for the new position's month. -/
def c9Mc : List RefRow := [⟨"BBBB3", 202411, 100⟩]

/-- The start-month consolidated row of the c9 data. -/
def c9R1 : FinalRow :=
  ⟨⟨2024, 10, 31⟩, "GESTORA A", "AAAA3", 5, 202410, none, none, .nan, 5⟩

/-- The end-month consolidated row of the c9 data. -/
def c9R2 : FinalRow :=
  ⟨⟨2024, 11, 29⟩, "GESTORA A", "BBBB3", 10, 202411, some 100, none, .num 10, 10⟩

/-- The mov row of the new position in the c9 data. -/
def c9M : MovRow := ⟨"GESTORA A", "BBBB3", .num 0, 0, 0, .num 10, 10, 10⟩

/-- A position held in both months whose first month has no market-cap
coverage. -/
def c10Brutos : List HoldingRecord :=
  [⟨⟨2024, 10, 31⟩, "FUNDO A", "Ações", "Ação ordinária", some "AAAA3", some 5⟩,
   ⟨⟨2024, 11, 29⟩, "FUNDO A", "Ações", "Ação ordinária", some "AAAA3", some 10⟩]

/-- The valid tickers for the c10 table. -/
def c10Tickers : List String := ["AAAA3"]

/-- Market cap only for the end month. -/
def c10Mc : List RefRow := [⟨"AAAA3", 202411, 100⟩]

/-- The start-date consolidated row of the c10 data: null market cap,
hence NaN ownership percentage. -/
def c10R1 : FinalRow :=
  ⟨⟨2024, 10, 31⟩, "GESTORA A", "AAAA3", 5, 202410, none, none, .nan, 5⟩

/-- The end-date consolidated row of the c10 data. -/
def c10R2 : FinalRow :=
  ⟨⟨2024, 11, 29⟩, "GESTORA A", "AAAA3", 10, 202411, some 100, none, .num 10, 10⟩

/-! Helper lemmas. -/

theorem fvalIsna_fillna0 (x : FVal) : fvalIsna (fillna0 x) = false := by
  cases x <;> rfl

theorem fvalLt_num (a b : ℚ) : fvalLt (.num a) (.num b) = true ↔ a < b := by
  simp [fvalLt]

theorem fvalLe_num (a b : ℚ) : fvalLe (.num a) (.num b) = true ↔ a ≤ b := by
  simp [fvalLe]

theorem fvalBeq_num (a b : ℚ) : fvalBeq (.num a) (.num b) = true ↔ a = b := by
  simp [fvalBeq]

theorem percCiaCalc_isna (v : ℚ) (mc : Option ℚ) :
    fvalIsna (percCiaCalc v mc) = true ↔ mc = none ∨ (mc = some 0 ∧ v = 0) := by
  cases mc with
  | none => simp [percCiaCalc, fvalIsna]
  | some m =>
    by_cases hm : m = 0
    · by_cases hv : v = 0
      · simp [percCiaCalc, qdivF, hm, hv, fvalMul, fvalIsna]
      · rcases lt_trichotomy v 0 with h | h | h
        · simp [percCiaCalc, qdivF, hm, hv, fvalMul, fvalIsna, not_lt_of_lt h, hm]
        · exact absurd h hv
        · simp [percCiaCalc, qdivF, hm, hv, h, fvalMul, fvalIsna]
    · simp [percCiaCalc, qdivF, hm, fvalMul, fvalIsna]

theorem mem_dfFinalFrom {m2 : List MergedRow} {r : FinalRow} (h : r ∈ dfFinalFrom m2) :
    ∃ x ∈ m2,
      r = ⟨x.dt, x.gestora, x.ativo, x.valor, x.mesAno, x.marketCap, x.liq,
        percCiaCalc x.valor x.marketCap, plTotalCalc m2 x.gestora x.dt⟩ := by
  obtain ⟨x, hx, hfx⟩ := List.mem_map.mp h
  exact ⟨x, hx, hfx.symm⟩

theorem dfFinalFrom_percCia {m2 : List MergedRow} {r : FinalRow} (h : r ∈ dfFinalFrom m2) :
    r.percCia = percCiaCalc r.valor r.marketCap := by
  obtain ⟨x, hx, rfl⟩ := mem_dfFinalFrom h
  rfl

theorem c1_eval : dfFinal c1Brutos c1Mapa c1Tickers c1Mc [] = [c1Row] := by
  norm_num [dfFinal, dfFinalFrom, mergeLiquidez, mergeMarketCap, posicaoConsolidada,
    dadosAcoes, dadosCompletos, c1Brutos, c1Mapa, c1Tickers, c1Mc, c1Row,
    tiposAplicInteresseAcoes, tiposAtivoAcao, keyOf, Data.mesAno,
    percCiaCalc, plTotalCalc, qdivF, fvalMul,
    List.dedup_cons_of_not_mem, List.dedup_nil,
    PosKey.mk.injEq, Data.mk.injEq,
    List.filterMap_cons, List.filterMap_nil, List.flatMap_cons, List.flatMap_nil,
    List.filter_cons, List.filter_nil, List.sum_cons, List.sum_nil]

/-- C1, counterexample: on a table whose single row has market cap present
and equal to zero with a zero aggregated value, the ownership percentage is
NaN (null) although the market cap is not absent, so the claimed
equivalence fails as stated. -/
theorem c1_counterexample :
    ¬ (∀ r ∈ dfFinal c1Brutos c1Mapa c1Tickers c1Mc [],
        (fvalIsna r.percCia = true ↔ r.marketCap = none)) := by
  intro h
  have h1 := h c1Row (by rw [c1_eval]; exact List.mem_singleton.mpr rfl)
  rw [show fvalIsna c1Row.percCia = true from rfl] at h1
  exact Option.some_ne_none 0 (h1.mp rfl)

/-- C1 (amended): for every row of the consolidated table, the ownership
percentage Perc_Cia is null (NaN) iff the market cap is absent for that
(ticker, month), or the market cap is present but zero while the aggregated
value is zero (the 0/0 case); in particular a missing market cap never
yields the number zero. -/
theorem c1_percCia_null_iff (brutos : List HoldingRecord) (mapa : List MapRow)
    (tickersValidos : List String) (mcS liqS : List RefRow) (r : FinalRow)
    (hr : r ∈ dfFinal brutos mapa tickersValidos mcS liqS) :
    (fvalIsna r.percCia = true ↔
      (r.marketCap = none ∨ (r.marketCap = some 0 ∧ r.valor = 0)))
    ∧ (r.marketCap = none → r.percCia ≠ .num 0) := by
  have hp := dfFinalFrom_percCia hr
  refine ⟨by rw [hp]; exact percCiaCalc_isna r.valor r.marketCap, ?_⟩
  intro hmc
  rw [hp, hmc]
  simp [percCiaCalc]

/-- C1 witness: the amended equivalence holds at the concrete row of the
c1 table. -/
theorem c1_percCia_null_iff_witness :
    (fvalIsna c1Row.percCia = true ↔
      (c1Row.marketCap = none ∨ (c1Row.marketCap = some 0 ∧ c1Row.valor = 0)))
    ∧ (c1Row.marketCap = none → c1Row.percCia ≠ .num 0) :=
  c1_percCia_null_iff c1Brutos c1Mapa c1Tickers c1Mc [] c1Row
    (by rw [c1_eval]; exact List.mem_singleton.mpr rfl)

theorem c4_eval : posicaoConsolidada c4Rs = [c4Row] := by
  norm_num [posicaoConsolidada, c4Rs, c4Row, keyOf, Data.mesAno,
    List.dedup_cons_of_mem, List.dedup_cons_of_not_mem, List.dedup_nil,
    PosKey.mk.injEq, Data.mk.injEq,
    List.filter_cons, List.filter_nil, List.sum_cons, List.sum_nil]

/-- C4: every row of posicao_consolidada carries the sum of the position
values of exactly the holding rows sharing its (report date, manager,
ticker) key; the keys of the output are pairwise distinct (one row per
key); and concretely two records for one key with values 100 and 50 yield
the single row with value 150. -/
theorem c4_aggregation (rs : List AcaoRow) (p : PosRow)
    (hp : p ∈ posicaoConsolidada rs) :
    p.valor = ((rs.filter (fun r => keyOf r = ⟨p.dt, p.gestora, p.ativo⟩)).map
        (fun r => r.vl.getD 0)).sum
    ∧ ((posicaoConsolidada rs).map (fun q => (q.dt, q.gestora, q.ativo))).Nodup
    ∧ posicaoConsolidada c4Rs = [c4Row] := by
  refine ⟨?_, ?_, c4_eval⟩
  · obtain ⟨k, _, rfl⟩ := List.mem_map.mp hp
    rfl
  · rw [posicaoConsolidada, List.map_map]
    refine List.Nodup.map ?_ (List.nodup_dedup _)
    intro k1 k2 hk
    simp only [Function.comp] at hk
    cases k1
    cases k2
    simpa [Prod.ext_iff] using hk

/-- C4 witness: the aggregation facts at the concrete two-record table. -/
theorem c4_aggregation_witness :
    c4Row.valor = ((c4Rs.filter (fun r => keyOf r = ⟨c4Row.dt, c4Row.gestora, c4Row.ativo⟩)).map
        (fun r => r.vl.getD 0)).sum
    ∧ ((posicaoConsolidada c4Rs).map (fun q => (q.dt, q.gestora, q.ativo))).Nodup
    ∧ posicaoConsolidada c4Rs = [c4Row] :=
  c4_aggregation c4Rs c4Row (by rw [c4_eval]; exact List.mem_singleton.mpr rfl)

/-- C7, counterexample: Perc_PL, the portfolio-weight percentage, is not a
column of the shared df_final table (each page derives it on its own copy),
so the claimed column list is wrong about the shared table. -/
theorem c7_counterexample : "Perc_PL" ∉ dfFinalCols := by decide

/-- C7 (amended): the shared df_final table carries report date, manager,
ticker, aggregated value, month key, market cap, liquidity, ownership
percentage and manager total, but not a portfolio-weight percentage
column; the views compute Perc_PL themselves from Valor_Consolidado_R and
the manager total. -/
theorem c7_dfFinal_columns :
    ("DT_COMPTC" ∈ dfFinalCols ∧ "Gestora" ∈ dfFinalCols ∧ "Ativo" ∈ dfFinalCols ∧
      "Valor_Consolidado_R" ∈ dfFinalCols ∧ "MesAno" ∈ dfFinalCols ∧
      "Market_Cap_Cia_R" ∈ dfFinalCols ∧ "Volume_Medio_Financeiro_60d" ∈ dfFinalCols ∧
      "Perc_Cia" ∈ dfFinalCols ∧ "PL_Total_Gestora_Mes" ∈ dfFinalCols)
    ∧ "Perc_PL" ∉ dfFinalCols := by decide

theorem lerMeses_missing (fs : String → Option (List HoldingRecord)) (caminho : String)
    (meses : List String)
    (h : ∃ mes ∈ meses, fs (pathConsolidado caminho mes) = none) :
    ∃ mes ∈ meses, fs (pathConsolidado caminho mes) = none ∧
      lerMeses fs caminho meses = .error ⟨mes, pathConsolidado caminho mes⟩ := by
  induction meses with
  | nil => simp at h
  | cons m rest ih =>
    cases hm : fs (pathConsolidado caminho m) with
    | none => exact ⟨m, List.mem_cons_self m rest, hm, by simp [lerMeses, hm]⟩
    | some df =>
      obtain ⟨mes, hin, hnone⟩ := h
      rcases List.mem_cons.mp hin with rfl | hin2
      · rw [hm] at hnone; cases hnone
      · obtain ⟨mes2, hin3, hnone2, herr⟩ := ih ⟨mes, hin2, hnone⟩
        exact ⟨mes2, List.mem_cons_of_mem _ hin3, hnone2, by simp [lerMeses, hm, herr]⟩

/-- C8: whenever the holdings file of some listed month is missing from
the file system, the loader halts with the fatal error naming that month
and its path, and no combined holdings table is produced (the result is
never a success value, so no month is silently skipped). -/
theorem c8_missing_month_fatal (fs : String → Option (List HoldingRecord))
    (caminho : String) (meses : List String)
    (h : ∃ mes ∈ meses, fs (pathConsolidado caminho mes) = none) :
    (∃ mes ∈ meses, fs (pathConsolidado caminho mes) = none ∧
       carregarDadosHistoricos fs caminho meses =
         .error ⟨mes, pathConsolidado caminho mes⟩)
    ∧ ∀ t, carregarDadosHistoricos fs caminho meses ≠ .ok t := by
  obtain ⟨mes, hin, hnone, herr⟩ := lerMeses_missing fs caminho meses h
  refine ⟨⟨mes, hin, hnone, by simp [carregarDadosHistoricos, herr]⟩, ?_⟩
  intro t
  simp [carregarDadosHistoricos, herr]

/-- C8 witness: with an empty file system and one requested month, the
loader fails with the error naming that month and path. -/
theorem c8_missing_month_fatal_witness :
    (∃ mes ∈ ["202410"], c8Fs (pathConsolidado "." mes) = none ∧
       carregarDadosHistoricos c8Fs "." ["202410"] =
         .error ⟨mes, pathConsolidado "." mes⟩)
    ∧ ∀ t, carregarDadosHistoricos c8Fs "." ["202410"] ≠ .ok t :=
  c8_missing_month_fatal c8Fs "." ["202410"] ⟨"202410", List.mem_singleton.mpr rfl, rfl⟩

/-- C3, counterexample: a sheet with two valid date columns inside one
month produces two reshaped rows for the same (ticker, year-month) pair,
refuting the claimed exactly-one invariant. -/
theorem c3_counterexample :
    ((carregarEProcessarPlanilhaWide c3Tickers c3Cols).filter
        (fun r => r.ticker = "AAAA3" ∧ r.mesAno = 202401)).length = 2 := by
  norm_num [carregarEProcessarPlanilhaWide, c3Tickers, c3Cols, Data.mesAno,
    List.flatMap_cons, List.flatMap_nil, List.filterMap_cons, List.filterMap_nil,
    List.filter_cons, List.filter_nil, List.zip]

/-- C3 (amended): the reshaped series has one row per (ticker row, date
column) cell whose date label parsed and whose value is numeric — hence at
least one row (possibly several, when a month has several date columns)
per (ticker, month) pair that had a valid value — and nothing else: rows
with unparseable dates or non-numeric values are dropped, never
zero-filled. -/
theorem c3_reshape_rows (tickers : List String) (cols : List WideCol) (r : RefRow) :
    r ∈ carregarEProcessarPlanilhaWide tickers cols ↔
      ∃ c ∈ cols, ∃ d, c.header = some d ∧ d.mesAno = r.mesAno ∧
        ∃ tv ∈ tickers.zip c.cells, tv.1 = r.ticker ∧ tv.2 = some r.val := by
  rw [carregarEProcessarPlanilhaWide, List.mem_flatMap]
  constructor
  · rintro ⟨c, hc, hr⟩
    obtain ⟨tv, htv, hsome⟩ := List.mem_filterMap.mp hr
    cases hh : c.header with
    | none => rw [hh] at hsome; cases hsome
    | some d =>
      cases hv : tv.2 with
      | none => rw [hh, hv] at hsome; cases hsome
      | some v =>
        rw [hh, hv] at hsome
        obtain rfl := Option.some_injective _ hsome
        exact ⟨c, hc, d, hh, rfl, tv, htv, rfl, hv⟩
  · rintro ⟨c, hc, d, hd, hmes, tv, htv, ht, hv⟩
    refine ⟨c, hc, List.mem_filterMap.mpr ⟨tv, htv, ?_⟩⟩
    rw [hd, hv]
    have hr : (⟨tv.1, d.mesAno, r.val⟩ : RefRow) = r := by
      cases r
      simp only [RefRow.mk.injEq]
      exact ⟨ht, hmes, trivial⟩
    exact congrArg some hr

theorem varRelAum_num {m : MovRow} {a b : ℚ} (hi : m.percCiaIni = .num a)
    (hf : m.percCiaFim = .num b) (ha : a ≠ 0) :
    varRelAum m = .num ((b - a) / a * 100) := by
  rw [varRelAum, hi, hf]
  simp [fvalSub, fvalDiv, qdivF, ha, fvalMul]

theorem varRelRed_num {m : MovRow} {a b : ℚ} (hi : m.percCiaIni = .num a)
    (hf : m.percCiaFim = .num b) (ha : a ≠ 0) :
    varRelRed m = .num ((a - b) / a * 100) := by
  rw [varRelRed, hi, hf]
  simp [fvalSub, fvalDiv, qdivF, ha, fvalMul]

/-- C5: a (manager, ticker) pair of the movement comparison with finite
start and end ownership percentages lands in the Aumentos table exactly
when the start percentage is positive, the end exceeds the start, the
relative increase (end minus start over start, times 100) is at least the
minimum-increase threshold (an exact tie qualifies, the bound being
inclusive), and the end percentage strictly exceeds the minimum final
participation. -/
theorem c5_increased_iff (mov : List MovRow) (aumentoRelMin partFinalMin : ℚ)
    (m : MovRow) (a b : ℚ) (hm : m ∈ mov)
    (hi : m.percCiaIni = .num a) (hf : m.percCiaFim = .num b) :
    m ∈ aumentos mov aumentoRelMin partFinalMin ↔
      (0 < a ∧ a < b ∧ aumentoRelMin ≤ (b - a) / a * 100 ∧ partFinalMin < b) := by
  simp only [aumentos]
  by_cases h1 : (mov.filter (fun x =>
      fvalLt (.num 0) x.percCiaIni && fvalLt x.percCiaIni x.percCiaFim)).isEmpty
  · rw [if_pos h1]
    rw [List.isEmpty_iff] at h1
    rw [h1]
    simp only [List.not_mem_nil, false_iff]
    rintro ⟨ha, hab, _, _⟩
    have hmem : m ∈ mov.filter (fun x =>
        fvalLt (.num 0) x.percCiaIni && fvalLt x.percCiaIni x.percCiaFim) :=
      List.mem_filter.mpr ⟨hm, by rw [hi, hf]; simp [fvalLt, ha, hab]⟩
    rw [h1] at hmem
    exact absurd hmem (List.not_mem_nil m)
  · rw [if_neg h1, List.mem_filter, List.mem_filter]
    constructor
    · rintro ⟨⟨hmem, hp1⟩, hp2⟩
      rw [hi, hf] at hp1
      simp only [fvalLt, Bool.and_eq_true, decide_eq_true_eq] at hp1
      obtain ⟨ha, hab⟩ := hp1
      rw [varRelAum_num hi hf (ne_of_gt ha), hf] at hp2
      simp only [fvalLe, fvalLt, Bool.and_eq_true, decide_eq_true_eq] at hp2
      exact ⟨ha, hab, hp2.1, hp2.2⟩
    · rintro ⟨ha, hab, hrel, hfin⟩
      refine ⟨⟨hm, by rw [hi, hf]; simp [fvalLt, ha, hab]⟩, ?_⟩
      rw [varRelAum_num hi hf (ne_of_gt ha), hf]
      simp [fvalLe, fvalLt, hrel, hfin]

/-- C5 witness: the spec scenario of 1.0 percent start and 1.6 percent end
ownership, with thresholds 50 and 0.05. -/
theorem c5_increased_iff_witness :
    c5M ∈ aumentos [c5M] 50 (1/20) ↔
      (0 < (1:ℚ) ∧ (1:ℚ) < 8/5 ∧ (50:ℚ) ≤ (8/5 - 1) / 1 * 100 ∧ (1/20 : ℚ) < 8/5) :=
  c5_increased_iff [c5M] 50 (1/20) c5M 1 (8/5) (List.mem_singleton.mpr rfl) rfl rfl

/-- C6: a pair with finite start and end ownership percentages lands in
the Reducoes table exactly when the start percentage is positive, the end
is below the start, and the relative decrease reaches the
minimum-decrease threshold — with no final-participation gate; moreover a
full exit (end percentage zero) qualifies whenever the threshold is at
most 100, its relative change is exactly 100 percent, and its end-date
portfolio weight is displayed as Zerou rather than a numeric
percentage. -/
theorem c6_decreased_iff (mov : List MovRow) (reducaoRelMin : ℚ) (m : MovRow)
    (a b : ℚ) (hm : m ∈ mov)
    (hi : m.percCiaIni = .num a) (hf : m.percCiaFim = .num b) :
    (m ∈ reducoes mov reducaoRelMin ↔
      (0 < a ∧ b < a ∧ reducaoRelMin ≤ (a - b) / a * 100))
    ∧ (b = 0 → 0 < a → reducaoRelMin ≤ 100 →
        m ∈ reducoes mov reducaoRelMin ∧ varRelRed m = .num 100 ∧
          percPLFinalRed m = .zerou) := by
  have hiff : m ∈ reducoes mov reducaoRelMin ↔
      (0 < a ∧ b < a ∧ reducaoRelMin ≤ (a - b) / a * 100) := by
    simp only [reducoes]
    by_cases h1 : (mov.filter (fun x =>
        fvalLt (.num 0) x.percCiaIni && fvalLt x.percCiaFim x.percCiaIni)).isEmpty
    · rw [if_pos h1]
      rw [List.isEmpty_iff] at h1
      rw [h1]
      simp only [List.not_mem_nil, false_iff]
      rintro ⟨ha, hab, _⟩
      have hmem : m ∈ mov.filter (fun x =>
          fvalLt (.num 0) x.percCiaIni && fvalLt x.percCiaFim x.percCiaIni) :=
        List.mem_filter.mpr ⟨hm, by rw [hi, hf]; simp [fvalLt, ha, hab]⟩
      rw [h1] at hmem
      exact absurd hmem (List.not_mem_nil m)
    · rw [if_neg h1, List.mem_filter, List.mem_filter]
      constructor
      · rintro ⟨⟨hmem, hp1⟩, hp2⟩
        rw [hi, hf] at hp1
        simp only [fvalLt, Bool.and_eq_true, decide_eq_true_eq] at hp1
        obtain ⟨ha, hab⟩ := hp1
        rw [varRelRed_num hi hf (ne_of_gt ha)] at hp2
        simp only [fvalLe, decide_eq_true_eq] at hp2
        exact ⟨ha, hab, hp2⟩
      · rintro ⟨ha, hab, hrel⟩
        refine ⟨⟨hm, by rw [hi, hf]; simp [fvalLt, ha, hab]⟩, ?_⟩
        rw [varRelRed_num hi hf (ne_of_gt ha)]
        simp [fvalLe, hrel]
  refine ⟨hiff, ?_⟩
  rintro rfl ha hr100
  have h100 : (a - 0) / a * 100 = 100 := by
    rw [sub_zero, div_self (ne_of_gt ha), one_mul]
  refine ⟨hiff.mpr ⟨ha, ha, by rw [h100]; exact hr100⟩, ?_, ?_⟩
  · rw [varRelRed_num hi hf (ne_of_gt ha), h100]
  · rw [percPLFinalRed, hf]
    simp [fvalBeq]

/-- C6 witness: the spec full-exit scenario of 2.0 percent start ownership
and zero end ownership, with decrease threshold 25. -/
theorem c6_decreased_iff_witness :
    (c6M ∈ reducoes [c6M] 25 ↔
      (0 < (2:ℚ) ∧ (0:ℚ) < 2 ∧ (25:ℚ) ≤ (2 - 0) / 2 * 100))
    ∧ ((0:ℚ) = 0 → 0 < (2:ℚ) → (25:ℚ) ≤ 100 →
        c6M ∈ reducoes [c6M] 25 ∧ varRelRed c6M = .num 100 ∧
          percPLFinalRed c6M = .zerou) :=
  c6_decreased_iff [c6M] 25 c6M 2 0 (List.mem_singleton.mpr rfl) rfl rfl

theorem dfFinalFrom_group_plTotal (m2 : List MergedRow) (g : String) (d : Data)
    (r : FinalRow)
    (hr : r ∈ (dfFinalFrom m2).filter (fun x => x.gestora = g ∧ x.dt = d)) :
    r.plTotal = plTotalCalc m2 g d := by
  rw [dfFinalFrom, List.filter_map] at hr
  obtain ⟨x, hx, rfl⟩ := List.mem_map.mp hr
  have hp := (List.mem_filter.mp hx).2
  simp only [Function.comp, decide_eq_true_eq] at hp
  obtain ⟨hg, hd⟩ := hp
  show plTotalCalc m2 x.gestora x.dt = plTotalCalc m2 g d
  rw [show x.gestora = g from hg, show x.dt = d from hd]

theorem dfFinalFrom_group_sum (m2 : List MergedRow) (g : String) (d : Data) :
    (((dfFinalFrom m2).filter (fun x => x.gestora = g ∧ x.dt = d)).map
        (fun r => r.valor)).sum = plTotalCalc m2 g d := by
  rw [dfFinalFrom, List.filter_map, List.map_map]
  rfl

theorem fvalSum_map_num {α : Type} (l : List α) (f : α → ℚ) :
    fvalSum (l.map (fun x => FVal.num (f x))) = .num ((l.map f).sum) := by
  induction l with
  | nil => rfl
  | cons x t ih =>
    rw [List.map_cons, fvalSum, List.foldr_cons]
    rw [fvalSum] at ih
    rw [ih, List.map_cons, List.sum_cons]
    rfl

theorem dfFinalFrom_percPL_sum (m2 : List MergedRow) (g : String) (d : Data)
    (hS : 0 < (((dfFinalFrom m2).filter (fun x => x.gestora = g ∧ x.dt = d)).map
        (fun r => r.valor)).sum) :
    fvalSum (((dfFinalFrom m2).filter (fun x => x.gestora = g ∧ x.dt = d)).map
        percPLEvo) = .num 100 := by
  set grp := (dfFinalFrom m2).filter (fun x => x.gestora = g ∧ x.dt = d) with hgrp
  have hSsum : (grp.map (fun r => r.valor)).sum = plTotalCalc m2 g d :=
    dfFinalFrom_group_sum m2 g d
  have hS0 : plTotalCalc m2 g d ≠ 0 := by
    rw [← hSsum]
    exact ne_of_gt (hSsum ▸ hSsum.symm ▸ hS)
  have hmap : grp.map percPLEvo =
      grp.map (fun r => FVal.num (r.valor / plTotalCalc m2 g d * 100)) := by
    apply List.map_congr_left
    intro r hr
    have hpl := dfFinalFrom_group_plTotal m2 g d r (hgrp ▸ hr)
    rw [percPLEvo, hpl, qdivF, if_neg hS0]
    rfl
  rw [hmap, fvalSum_map_num]
  have h1 := List.sum_map_mul_right grp (fun r => r.valor / plTotalCalc m2 g d) (100:ℚ)
  have h2 := List.sum_map_mul_right grp (fun r => r.valor) (plTotalCalc m2 g d)⁻¹
  congr 1
  calc (grp.map fun r => r.valor / plTotalCalc m2 g d * 100).sum
      = (grp.map fun r => r.valor / plTotalCalc m2 g d).sum * 100 := h1
    _ = ((grp.map fun r => r.valor).sum * (plTotalCalc m2 g d)⁻¹) * 100 := by
        rw [← h2]
        simp only [div_eq_mul_inv]
    _ = 100 := by
        rw [hSsum, mul_inv_cancel₀ hS0, one_mul]

/-- C2: for every (manager, date) group of the consolidated table whose
manager total is positive, the evolution-page portfolio-weight percentages
of the group's rows sum to exactly 100, hence within the one-in-a-million
tolerance of 100. -/
theorem c2_percPL_sums_to_100 (brutos : List HoldingRecord) (mapa : List MapRow)
    (tickersValidos : List String) (mcS liqS : List RefRow) (g : String) (d : Data)
    (hS : 0 < (((dfFinal brutos mapa tickersValidos mcS liqS).filter
        (fun x => x.gestora = g ∧ x.dt = d)).map (fun r => r.valor)).sum) :
    ∃ q : ℚ,
      fvalSum (((dfFinal brutos mapa tickersValidos mcS liqS).filter
          (fun x => x.gestora = g ∧ x.dt = d)).map percPLEvo) = .num q
        ∧ |q - 100| ≤ 1 / 1000000 :=
  ⟨100, dfFinalFrom_percPL_sum _ g d hS, by norm_num⟩

theorem c2_eval :
    dfFinal c2Brutos c1Mapa c2Tickers [] [] =
      [⟨⟨2024, 10, 31⟩, "GESTORA A", "AAAA3", 60, 202410, none, none, .nan, 100⟩,
       ⟨⟨2024, 10, 31⟩, "GESTORA A", "BBBB3", 40, 202410, none, none, .nan, 100⟩] := by
  have hd : ([⟨⟨2024, 10, 31⟩, "GESTORA A", "AAAA3"⟩,
      ⟨⟨2024, 10, 31⟩, "GESTORA A", "BBBB3"⟩] : List PosKey).dedup
      = [⟨⟨2024, 10, 31⟩, "GESTORA A", "AAAA3"⟩,
         ⟨⟨2024, 10, 31⟩, "GESTORA A", "BBBB3"⟩] := by decide
  have e1 : (("BBBB3" : String) = "AAAA3") = False :=
    eq_false (by decide)
  have e2 : (("AAAA3" : String) = "BBBB3") = False :=
    eq_false (by decide)
  norm_num [hd, e1, e2, dfFinal, dfFinalFrom, mergeLiquidez, mergeMarketCap, posicaoConsolidada,
    dadosAcoes, dadosCompletos, c2Brutos, c1Mapa, c2Tickers,
    tiposAplicInteresseAcoes, tiposAtivoAcao, keyOf, Data.mesAno,
    percCiaCalc, plTotalCalc, qdivF, fvalMul,
    List.dedup_cons_of_mem, List.dedup_cons_of_not_mem, List.dedup_nil,
    PosKey.mk.injEq, Data.mk.injEq,
    List.filterMap_cons, List.filterMap_nil, List.flatMap_cons, List.flatMap_nil,
    List.filter_cons, List.filter_nil, List.sum_cons, List.sum_nil]

/-- C2 witness: a manager with positions 60 and 40 on one date has
portfolio weights summing to 100. -/
theorem c2_percPL_sums_to_100_witness :
    ∃ q : ℚ,
      fvalSum (((dfFinal c2Brutos c1Mapa c2Tickers [] []).filter
          (fun x => x.gestora = "GESTORA A" ∧ x.dt = ⟨2024, 10, 31⟩)).map percPLEvo)
        = .num q ∧ |q - 100| ≤ 1 / 1000000 :=
  c2_percPL_sums_to_100 c2Brutos c1Mapa c2Tickers [] [] "GESTORA A" ⟨2024, 10, 31⟩
    (by rw [c2_eval]; norm_num [List.filter_cons, List.filter_nil, Data.mk.injEq])

theorem mem_outerMergeFill {ini fim : List SnapRow} {m : MovRow}
    (h : m ∈ outerMergeFill ini fim) :
    (∃ a ∈ ini, m = mkLeftOnly a) ∨ (∃ a ∈ ini, ∃ b ∈ fim, m = mkBoth a b) ∨
      (∃ b ∈ fim, m = mkRightOnly b) := by
  rw [outerMergeFill, List.mem_append] at h
  rcases h with h | h
  · obtain ⟨a, ha, hm⟩ := List.mem_flatMap.mp h
    by_cases he :
        (fim.filter (fun b => a.gestora = b.gestora ∧ a.ativo = b.ativo)).isEmpty
    · rw [if_pos he, List.mem_singleton] at hm
      exact Or.inl ⟨a, ha, hm⟩
    · rw [if_neg he] at hm
      obtain ⟨b, hb, hmb⟩ := List.mem_map.mp hm
      exact Or.inr (Or.inl ⟨a, ha, b, (List.mem_filter.mp hb).1, hmb.symm⟩)
  · obtain ⟨b, hb, hmb⟩ := List.mem_map.mp h
    exact Or.inr (Or.inr ⟨b, (List.mem_filter.mp hb).1, hmb.symm⟩)

theorem mkBoth_mem_outerMergeFill {ini fim : List SnapRow} {a b : SnapRow}
    (ha : a ∈ ini) (hb : b ∈ fim) (hg : a.gestora = b.gestora)
    (hat : a.ativo = b.ativo) :
    mkBoth a b ∈ outerMergeFill ini fim := by
  rw [outerMergeFill, List.mem_append]
  left
  rw [List.mem_flatMap]
  refine ⟨a, ha, ?_⟩
  have hbf : b ∈ fim.filter (fun x => a.gestora = x.gestora ∧ a.ativo = x.ativo) :=
    List.mem_filter.mpr ⟨hb, by simp [hg, hat]⟩
  have hne : ¬ ((fim.filter
      (fun x => a.gestora = x.gestora ∧ a.ativo = x.ativo)).isEmpty = true) := by
    intro he
    rw [List.isEmpty_iff] at he
    rw [he] at hbf
    exact absurd hbf (List.not_mem_nil b)
  rw [if_neg hne]
  exact List.mem_map.mpr ⟨b, hbf, rfl⟩

theorem mem_dfFim {df : List FinalRow} {b : SnapRow} (h : b ∈ dfFim df) :
    ∃ r ∈ df, r.dt = dataFim df ∧ b = snapOf r := by
  rw [dfFim] at h
  obtain ⟨r, hr, hb⟩ := List.mem_map.mp h
  have := List.mem_filter.mp hr
  exact ⟨r, this.1, by simpa using this.2, hb.symm⟩

theorem percCia_pos_valor_ne_zero {v : ℚ} {mc : Option ℚ} {p : ℚ}
    (hp : 0 ≤ p)
    (h : fvalLt (.num p) (fillna0 (percCiaCalc v mc)) = true) : v ≠ 0 := by
  intro hv
  subst hv
  cases mc with
  | none =>
    simp only [percCiaCalc, fillna0, fvalLt, decide_eq_true_eq] at h
    exact absurd h (not_lt_of_le hp)
  | some m =>
    by_cases hm : m = 0
    · simp only [percCiaCalc, qdivF, hm, if_pos rfl, if_true, fvalMul, fillna0,
        fvalLt, decide_eq_true_eq] at h
      exact absurd h (not_lt_of_le hp)
    · simp only [percCiaCalc, qdivF, if_neg hm, fvalMul, zero_div, zero_mul,
        fillna0, fvalLt, decide_eq_true_eq] at h
      exact absurd h (not_lt_of_le hp)

theorem percPLFinal_finite {m : MovRow} (hv : m.valorFim ≠ 0) :
    fvalIsFinite (percPLFinal m) = true := by
  rw [percPLFinal]
  rcases eq_or_ne m.plFim 0 with h0 | h0
  · rcases lt_trichotomy m.valorFim 0 with h | h | h
    · simp [qdivF, h0, hv, replaceInf0, fvalMul, fvalIsFinite, not_lt_of_lt h]
    · exact absurd h hv
    · simp [qdivF, h0, hv, h, replaceInf0, fvalMul, fvalIsFinite]
  · simp [qdivF, h0, replaceInf0, fvalMul, fvalIsFinite]

/-- C9: (a) every row of the Posicoes Novas table built from the
consolidated pipeline has a finite displayed portfolio weight — the
infinities of a zero or absent end-date manager total are replaced by
zero and the 0/0 NaN case is unreachable because membership forces a
nonzero end value (given the widget's nonnegative final threshold);
(b) the selected-month portfolio weight is zero when the manager total is
zero and is always a finite number. -/
theorem c9_division_degeneracies :
    (∀ (brutos : List HoldingRecord) (mapa : List MapRow)
        (tickersValidos : List String) (mcS liqS : List RefRow) (pmin : ℚ)
        (m : MovRow), 0 ≤ pmin →
        m ∈ novas (movOf (dfFinal brutos mapa tickersValidos mcS liqS)) pmin →
        fvalIsFinite (percPLFinal m) = true)
    ∧ (∀ v pl : ℚ, (pl = 0 → percPLMes v pl = .num 0) ∧
        fvalIsFinite (percPLMes v pl) = true) := by
  constructor
  · intro brutos mapa tickersValidos mcS liqS pmin m hp hm
    rw [novas, List.mem_filter] at hm
    obtain ⟨hmov, hcond⟩ := hm
    simp only [Bool.and_eq_true] at hcond
    obtain ⟨_, hlt⟩ := hcond
    rw [movOf] at hmov
    apply percPLFinal_finite
    rcases mem_outerMergeFill hmov with ⟨a, _, rfl⟩ | ⟨a, _, b, hb, rfl⟩ | ⟨b, hb, rfl⟩
    · exfalso
      simp only [mkLeftOnly, fvalLt, decide_eq_true_eq] at hlt
      exact absurd hlt (not_lt_of_le hp)
    · obtain ⟨r, hr, _, rfl⟩ := mem_dfFim hb
      have hlt2 : fvalLt (.num pmin) (fillna0 r.percCia) = true := hlt
      rw [dfFinalFrom_percCia hr] at hlt2
      exact percCia_pos_valor_ne_zero hp hlt2
    · obtain ⟨r, hr, _, rfl⟩ := mem_dfFim hb
      have hlt2 : fvalLt (.num pmin) (fillna0 r.percCia) = true := hlt
      rw [dfFinalFrom_percCia hr] at hlt2
      exact percCia_pos_valor_ne_zero hp hlt2
  · intro v pl
    constructor
    · intro h0
      rw [percPLMes, if_neg (by simpa using h0)]
    · by_cases h0 : pl = 0
      · simp [percPLMes, h0, fvalIsFinite]
      · simp [percPLMes, h0, qdivF, fvalMul, fvalIsFinite]

theorem c9_df_eval :
    dfFinal c9Brutos c1Mapa c9Tickers c9Mc [] = [c9R1, c9R2] := by
  have hd : ([⟨⟨2024, 10, 31⟩, "GESTORA A", "AAAA3"⟩,
      ⟨⟨2024, 11, 29⟩, "GESTORA A", "BBBB3"⟩] : List PosKey).dedup
      = [⟨⟨2024, 10, 31⟩, "GESTORA A", "AAAA3"⟩,
         ⟨⟨2024, 11, 29⟩, "GESTORA A", "BBBB3"⟩] := by decide
  have e1 : (("BBBB3" : String) = "AAAA3") = False := eq_false (by decide)
  have e2 : (("AAAA3" : String) = "BBBB3") = False := eq_false (by decide)
  norm_num [hd, e1, e2, dfFinal, dfFinalFrom, mergeLiquidez, mergeMarketCap,
    posicaoConsolidada, dadosAcoes, dadosCompletos, c9Brutos, c1Mapa, c9Tickers,
    c9Mc, c9R1, c9R2, tiposAplicInteresseAcoes, tiposAtivoAcao, keyOf, Data.mesAno,
    percCiaCalc, plTotalCalc, qdivF, fvalMul,
    List.dedup_cons_of_mem, List.dedup_cons_of_not_mem, List.dedup_nil,
    PosKey.mk.injEq, Data.mk.injEq,
    List.filterMap_cons, List.filterMap_nil, List.flatMap_cons, List.flatMap_nil,
    List.filter_cons, List.filter_nil, List.sum_cons, List.sum_nil]

theorem c9_novas_eval :
    novas (movOf (dfFinal c9Brutos c1Mapa c9Tickers c9Mc [])) 1 = [c9M] := by
  rw [c9_df_eval]
  have hd : ([⟨2024, 10, 31⟩, ⟨2024, 11, 29⟩] : List Data).dedup
      = [⟨2024, 10, 31⟩, ⟨2024, 11, 29⟩] := by decide
  have e1 : (("BBBB3" : String) = "AAAA3") = False := eq_false (by decide)
  have e2 : (("AAAA3" : String) = "BBBB3") = False := eq_false (by decide)
  norm_num [hd, e1, e2, novas, movOf, outerMergeFill, dfIni, dfFim, dataIni,
    dataFim, datasDisp, dataMinAB, dataMaxAB, Data.toNat, snapOf, mkLeftOnly,
    mkRightOnly, mkBoth, fillna0, fvalBeq, fvalLt, c9R1, c9R2, c9M,
    Data.mk.injEq, List.filter_cons, List.filter_nil, List.flatMap_cons,
    List.flatMap_nil, List.any_cons, List.any_nil]

/-- C9 witness: the displayed portfolio weight of the concrete new
position is a finite number. -/
theorem c9_division_degeneracies_witness :
    fvalIsFinite (percPLFinal c9M) = true :=
  c9_division_degeneracies.1 c9Brutos c1Mapa c9Tickers c9Mc [] 1 c9M
    (by norm_num) (by rw [c9_novas_eval]; exact List.mem_singleton.mpr rfl)

/-- C10: after the movement page's outer join and fillna(0), no NaN field
remains in mov; consequently a (manager, ticker) pair held at the start
date whose market cap is missing there (NaN ownership, filled to zero)
and whose end-date ownership exceeds the minimum final participation is
classified as a New position. -/
theorem c10_fillna_makes_new (brutos : List HoldingRecord) (mapa : List MapRow)
    (tickersValidos : List String) (mcS liqS : List RefRow) (pmin : ℚ)
    (r1 r2 : FinalRow)
    (hlen : 2 ≤ (datasDisp (dfFinal brutos mapa tickersValidos mcS liqS)).length)
    (hr1 : r1 ∈ dfFinal brutos mapa tickersValidos mcS liqS)
    (hd1 : r1.dt = dataIni (dfFinal brutos mapa tickersValidos mcS liqS))
    (hr2 : r2 ∈ dfFinal brutos mapa tickersValidos mcS liqS)
    (hd2 : r2.dt = dataFim (dfFinal brutos mapa tickersValidos mcS liqS))
    (hg : r1.gestora = r2.gestora) (hat : r1.ativo = r2.ativo)
    (hmc : r1.marketCap = none)
    (hfim : fvalLt (.num pmin) (fillna0 r2.percCia) = true) :
    (∀ m ∈ movOf (dfFinal brutos mapa tickersValidos mcS liqS),
        fvalIsna m.percCiaIni = false ∧ fvalIsna m.percCiaFim = false)
    ∧ ∃ m ∈ novas (movOf (dfFinal brutos mapa tickersValidos mcS liqS)) pmin,
        m.gestora = r1.gestora ∧ m.ativo = r1.ativo ∧ m.percCiaIni = .num 0 := by
  constructor
  · intro m hm
    rw [movOf] at hm
    rcases mem_outerMergeFill hm with ⟨a, _, rfl⟩ | ⟨a, _, b, _, rfl⟩ | ⟨b, _, rfl⟩
    · exact ⟨fvalIsna_fillna0 a.percCia, rfl⟩
    · exact ⟨fvalIsna_fillna0 a.percCia, fvalIsna_fillna0 b.percCia⟩
    · exact ⟨rfl, fvalIsna_fillna0 b.percCia⟩
  · have hpc1 : r1.percCia = .nan := by
      rw [dfFinalFrom_percCia hr1, hmc]
      rfl
    have ha : snapOf r1 ∈ dfIni (dfFinal brutos mapa tickersValidos mcS liqS) := by
      rw [dfIni]
      exact List.mem_map.mpr ⟨r1, List.mem_filter.mpr ⟨hr1, by simp [hd1]⟩, rfl⟩
    have hb : snapOf r2 ∈ dfFim (dfFinal brutos mapa tickersValidos mcS liqS) := by
      rw [dfFim]
      exact List.mem_map.mpr ⟨r2, List.mem_filter.mpr ⟨hr2, by simp [hd2]⟩, rfl⟩
    have hmov : mkBoth (snapOf r1) (snapOf r2) ∈
        movOf (dfFinal brutos mapa tickersValidos mcS liqS) := by
      rw [movOf]
      exact mkBoth_mem_outerMergeFill ha hb hg hat
    refine ⟨mkBoth (snapOf r1) (snapOf r2), ?_, rfl, rfl, ?_⟩
    · rw [novas, List.mem_filter]
      refine ⟨hmov, ?_⟩
      have hini : (mkBoth (snapOf r1) (snapOf r2)).percCiaIni = .num 0 := by
        show fillna0 r1.percCia = .num 0
        rw [hpc1]
        rfl
      have hfim2 : (mkBoth (snapOf r1) (snapOf r2)).percCiaFim = fillna0 r2.percCia :=
        rfl
      rw [Bool.and_eq_true, hini, hfim2]
      exact ⟨by simp [fvalBeq], hfim⟩
    · show fillna0 r1.percCia = .num 0
      rw [hpc1]
      rfl

theorem c10_df_eval :
    dfFinal c10Brutos c1Mapa c10Tickers c10Mc [] = [c10R1, c10R2] := by
  have hd : ([⟨⟨2024, 10, 31⟩, "GESTORA A", "AAAA3"⟩,
      ⟨⟨2024, 11, 29⟩, "GESTORA A", "AAAA3"⟩] : List PosKey).dedup
      = [⟨⟨2024, 10, 31⟩, "GESTORA A", "AAAA3"⟩,
         ⟨⟨2024, 11, 29⟩, "GESTORA A", "AAAA3"⟩] := by decide
  norm_num [hd, dfFinal, dfFinalFrom, mergeLiquidez, mergeMarketCap,
    posicaoConsolidada, dadosAcoes, dadosCompletos, c10Brutos, c1Mapa, c10Tickers,
    c10Mc, c10R1, c10R2, tiposAplicInteresseAcoes, tiposAtivoAcao, keyOf,
    Data.mesAno, percCiaCalc, plTotalCalc, qdivF, fvalMul,
    List.dedup_cons_of_mem, List.dedup_cons_of_not_mem, List.dedup_nil,
    PosKey.mk.injEq, Data.mk.injEq,
    List.filterMap_cons, List.filterMap_nil, List.flatMap_cons, List.flatMap_nil,
    List.filter_cons, List.filter_nil, List.sum_cons, List.sum_nil]

/-- C10 witness: the concrete pair held in both months with missing
start-month market cap and end ownership 10 percent is classified New
for a 1 percent final threshold. -/
theorem c10_fillna_makes_new_witness :
    (∀ m ∈ movOf (dfFinal c10Brutos c1Mapa c10Tickers c10Mc []),
        fvalIsna m.percCiaIni = false ∧ fvalIsna m.percCiaFim = false)
    ∧ ∃ m ∈ novas (movOf (dfFinal c10Brutos c1Mapa c10Tickers c10Mc [])) 1,
        m.gestora = c10R1.gestora ∧ m.ativo = c10R1.ativo ∧ m.percCiaIni = .num 0 :=
  c10_fillna_makes_new c10Brutos c1Mapa c10Tickers c10Mc [] 1 c10R1 c10R2
    (by rw [c10_df_eval]; decide)
    (by rw [c10_df_eval]; exact List.mem_cons_self _ _)
    (by rw [c10_df_eval]; decide)
    (by rw [c10_df_eval]; exact List.mem_cons_of_mem _ (List.mem_singleton.mpr rfl))
    (by rw [c10_df_eval]; decide)
    rfl rfl rfl (by decide)
